import Mathlib

/-!
Verification of the llama-buddy repository: a shallow embedding in Lean 4 of
the retry/backoff library, the SHA-256 content verification, the download
client, the manifest pull pipeline and the catalog-sync pipeline, together
with theorems settling the specification claims C1..C10.

Conventions of the embedding:
* Rust `u64` values are `Nat`s together with explicit saturation at
  `U64MAX = 2^64 - 1`, mirroring `checked_mul`/`checked_add` fallbacks.
* `Duration`s are natural numbers of milliseconds (every duration in the
  source is built with `Duration::from_millis`).
* An asynchronous action retried by the driver is modelled as the sequence of
  outcomes of its successive invocations: `action k` is the result of the
  `(k+1)`-th invocation (the source models it as a zero-argument closure).
* Fallible Rust functions returning `Result` become `Except`.
-/

namespace Retry

/-- Embedding of `retry::spawn` (crates/http-extra/retry/mod.rs).
The strategy iterator is a list of durations, `k` counts invocations already
made.  Returns the final result, the total number of invocations of the
action, and the list of sleeps performed (in order).  The source loops:
invoke the action; on `Ok` return it; on `Err`, if the strategy yields a next
duration, sleep and retry, otherwise return the last error. -/
def spawnAux (action : Nat → Except ε α) : List Nat → Nat → Except ε α × Nat × List Nat
  | strategy, k =>
    match action k with
    | .ok t => (.ok t, k + 1, [])
    | .error e =>
      match strategy with
      | [] => (.error e, k + 1, [])
      | d :: rest =>
        let r := spawnAux action rest (k + 1)
        (r.1, r.2.1, d :: r.2.2)

/-- `retry::spawn` started with no invocations made yet. -/
def spawn (strategy : List Nat) (action : Nat → Except ε α) : Except ε α × Nat × List Nat :=
  spawnAux action strategy 0

/-- Embedding of `retry::spawn_if` (crates/http-extra/retry/mod.rs).
On a failure the source first steps the strategy iterator; if it is
exhausted the error is returned; if it yields a duration and the condition
holds of the error the driver sleeps and retries, otherwise the error is
returned immediately. -/
def spawnIfAux (action : Nat → Except ε α) (cond : ε → Bool) :
    List Nat → Nat → Except ε α × Nat × List Nat
  | strategy, k =>
    match action k with
    | .ok t => (.ok t, k + 1, [])
    | .error e =>
      match strategy with
      | [] => (.error e, k + 1, [])
      | d :: rest =>
        if cond e then
          let r := spawnIfAux action cond rest (k + 1)
          (r.1, r.2.1, d :: r.2.2)
        else (.error e, k + 1, [])

/-- `retry::spawn_if` started with no invocations made yet. -/
def spawnIf (strategy : List Nat) (action : Nat → Except ε α) (cond : ε → Bool) :
    Except ε α × Nat × List Nat :=
  spawnIfAux action cond strategy 0

theorem spawnAux_allFail (action : Nat → Except ε α)
    (hFail : ∀ j, ∃ e, action j = .error e) :
    ∀ (strategy : List Nat) (k : Nat),
      spawnAux action strategy k = (action (k + strategy.length), k + strategy.length + 1, strategy) := by
  intro strategy
  induction strategy with
  | nil =>
    intro k
    obtain ⟨e, he⟩ := hFail k
    simp [spawnAux, he]
  | cons d rest ih =>
    intro k
    obtain ⟨e, he⟩ := hFail k
    simp only [spawnAux, he, ih (k + 1), List.length_cons]
    have h1 : k + 1 + rest.length = k + (rest.length + 1) := by omega
    rw [h1]

theorem spawnAux_firstOk (action : Nat → Except ε α) :
    ∀ (i : Nat) (strategy : List Nat) (k : Nat) (t : α),
      i ≤ strategy.length →
      (∀ j, j < i → ∃ e, action (k + j) = .error e) →
      action (k + i) = .ok t →
      spawnAux action strategy k = (.ok t, k + i + 1, strategy.take i) := by
  intro i
  induction i with
  | zero =>
    intro strategy k t _ _ hok
    simp only [Nat.add_zero] at hok
    cases strategy <;> simp [spawnAux, hok]
  | succ i ih =>
    intro strategy k t hlen hfail hok
    obtain ⟨e, he⟩ := hfail 0 (Nat.succ_pos i)
    simp only [Nat.add_zero] at he
    match strategy with
    | [] => simp at hlen
    | d :: rest =>
      have hrec := ih rest (k + 1) t (by simpa using hlen)
        (fun j hj => by
          obtain ⟨e', he'⟩ := hfail (j + 1) (by omega)
          exact ⟨e', by rw [← he']; congr 1; omega⟩)
        (by rw [← hok]; congr 1; omega)
      simp only [spawnAux, he, hrec, List.take_succ_cons]
      have h1 : k + 1 + i = k + (i + 1) := by omega
      rw [h1]

end Retry

namespace Backoff

/-- The largest `u64` value; Rust saturating/checked arithmetic bottoms out here. -/
def U64MAX : Nat := 18446744073709551615

/-- `u64::checked_mul`: `none` exactly on overflow. -/
def checkedMul (a b : Nat) : Option Nat :=
  if a * b ≤ U64MAX then some (a * b) else none

/-- `u64::checked_add`: `none` exactly on overflow. -/
def checkedAdd (a b : Nat) : Option Nat :=
  if a + b ≤ U64MAX then some (a + b) else none

/-- Embedding of `FibonacciBackoff`
(crates/http-extra/retry/strategy/fibonacci_backoff.rs): current and next
delay, multiplication factor, optional maximal delay (all in milliseconds). -/
structure FibonacciBackoff where
  current : Nat
  next : Nat
  factor : Nat
  maxDelay : Option Nat
deriving DecidableEq, Repr

/-- `FibonacciBackoff::from_millis`. -/
def FibonacciBackoff.from_millis (millis : Nat) : FibonacciBackoff :=
  { current := millis, next := millis, factor := 1, maxDelay := none }

/-- `FibonacciBackoff::max_delay`. -/
def FibonacciBackoff.max_delay (s : FibonacciBackoff) (d : Nat) : FibonacciBackoff :=
  { s with maxDelay := some d }

/-- `FibonacciBackoff::factor`. -/
def FibonacciBackoff.with_factor (s : FibonacciBackoff) (f : Nat) : FibonacciBackoff :=
  { s with factor := f }

/-- The `(current, next)` update of `Iterator::next`: `(next, current + next)`
with a saturating addition. -/
def FibonacciBackoff.advance (s : FibonacciBackoff) : FibonacciBackoff :=
  match checkedAdd s.current s.next with
  | some nn => { s with current := s.next, next := nn }
  | none => { s with current := s.next, next := U64MAX }

/-- Embedding of `<FibonacciBackoff as Iterator>::next` (it always returns
`Some`).  The yielded duration is `current * factor` saturated at `u64::MAX`;
if a maximal delay is set and the duration exceeds it, the maximal delay is
yielded and the state is NOT advanced (the source returns early). -/
def FibonacciBackoff.step (s : FibonacciBackoff) : Nat × FibonacciBackoff :=
  let duration :=
    match checkedMul s.current s.factor with
    | some d => d
    | none => U64MAX
  match s.maxDelay with
  | some m =>
    if duration > m then (m, s)
    else (duration, s.advance)
  | none => (duration, s.advance)

/-- The `n`-th duration (0-based) yielded by the iterator. -/
def FibonacciBackoff.nthDelay (s : FibonacciBackoff) : Nat → Nat
  | 0 => s.step.1
  | n + 1 => FibonacciBackoff.nthDelay s.step.2 n

/-- The first `n` durations yielded by the iterator. -/
def FibonacciBackoff.takeDelays (s : FibonacciBackoff) : Nat → List Nat
  | 0 => []
  | n + 1 => s.step.1 :: FibonacciBackoff.takeDelays s.step.2 n

end Backoff

open Retry Backoff in
/-- C7: for every backoff strategy yielding exactly `n` durations and every
action, the retry driver invokes the action once and on each failure, if the
strategy yields a next duration, sleeps it and retries; an always-failing
action is invoked exactly `n + 1` times and the error of the last invocation
is returned (after sleeping every yielded duration); if some invocation
succeeds, its success value is returned immediately with no further attempts
(only the durations before it having been slept). -/
theorem C7_retry_driver (strategy : List Nat) (action : Nat → Except ε α) (k : Nat) (t : α) :
    ((∀ j, ∃ e, action j = .error e) →
      Retry.spawn strategy action = (action strategy.length, strategy.length + 1, strategy)) ∧
    (k ≤ strategy.length →
      (∀ j, j < k → ∃ e, action j = .error e) →
      action k = .ok t →
      Retry.spawn strategy action = (.ok t, k + 1, strategy.take k)) := by
  constructor
  · intro hFail
    have h := Retry.spawnAux_allFail action hFail strategy 0
    simpa [Retry.spawn] using h
  · intro hlen hfail hok
    have h := Retry.spawnAux_firstOk action k strategy 0 t hlen
      (fun j hj => by simpa using hfail j hj) (by simpa using hok)
    simpa [Retry.spawn] using h

/-- Witness for C7 at concrete inputs: a strategy of two durations with an
always-failing action gives three invocations returning the error, and a
success on the third invocation under a three-duration strategy returns
immediately. -/
theorem C7_retry_driver_witness :
    Retry.spawn [5, 6] (fun _ => (.error 42 : Except Nat Nat)) = (.error 42, 3, [5, 6]) ∧
    Retry.spawn [5, 6, 7] (fun j => if j < 2 then (.error 9 : Except Nat Nat) else .ok 7) =
      (.ok 7, 3, [5, 6]) := by
  constructor
  · simpa using (C7_retry_driver [5, 6] (fun _ => (.error 42 : Except Nat Nat)) 0 0).1
      (fun _ => ⟨42, rfl⟩)
  · simpa using (C7_retry_driver [5, 6, 7]
      (fun j => if j < 2 then (.error 9 : Except Nat Nat) else .ok 7) 2 7).2
      (by decide) (fun j hj => ⟨9, if_pos hj⟩) rfl

/-- C8: in the conditional retry variant, whenever the caller-supplied
predicate applied to a failure value is false, the driver returns that failure
immediately: no sleep occurs and the action is not invoked again (the
strategy iterator is owned by the driver, so the step it pulled before
testing the predicate is unobservable).  Stated for every reachable loop
state `k` and in particular for the initial one. -/
theorem C8_conditional_short_circuit (strategy : List Nat) (action : Nat → Except ε α)
    (cond : ε → Bool) (k : Nat) (e : ε)
    (hfail : action k = .error e) (hcond : cond e = false) :
    Retry.spawnIfAux action cond strategy k = (.error e, k + 1, []) ∧
    (k = 0 → Retry.spawnIf strategy action cond = (.error e, 1, [])) := by
  have h1 : Retry.spawnIfAux action cond strategy k = (.error e, k + 1, []) := by
    cases strategy with
    | nil => simp [Retry.spawnIfAux, hfail]
    | cons d rest => simp [Retry.spawnIfAux, hfail, hcond]
  refine ⟨h1, fun hk => ?_⟩
  subst hk
  simpa [Retry.spawnIf] using h1

/-- Witness for C8 at a concrete input: an action failing with `5` under the
predicate `fun e => e < 3` returns at once, with one invocation and no sleep. -/
theorem C8_conditional_short_circuit_witness :
    Retry.spawnIf [9, 9] (fun _ => (.error 5 : Except Nat Nat)) (fun e => e < 3) =
      (.error 5, 1, []) := by
  exact (C8_conditional_short_circuit [9, 9] (fun _ => (.error 5 : Except Nat Nat))
    (fun e => e < 3) 0 5 rfl (by decide)).2 rfl

namespace Backoff

theorem fib50_frozen :
    ∀ m, FibonacciBackoff.nthDelay ⟨80, 130, 1, some 50⟩ m = 50 := by
  intro m
  induction m with
  | zero => decide
  | succ m ih =>
    have hstep : FibonacciBackoff.step ⟨80, 130, 1, some 50⟩ = (50, ⟨80, 130, 1, some 50⟩) := by
      decide
    simp only [FibonacciBackoff.nthDelay, hstep]
    exact ih

theorem fib50_from_four :
    ∀ m, FibonacciBackoff.nthDelay ⟨50, 80, 1, some 50⟩ m = 50 := by
  intro m
  have hstep : FibonacciBackoff.step ⟨50, 80, 1, some 50⟩ = (50, ⟨80, 130, 1, some 50⟩) := by
    decide
  cases m with
  | zero => decide
  | succ m =>
    simp only [FibonacciBackoff.nthDelay, hstep]
    exact fib50_frozen m

theorem nthDelay_add_four (s : FibonacciBackoff) (m : Nat) :
    FibonacciBackoff.nthDelay s (m + 4) =
      FibonacciBackoff.nthDelay s.step.2.step.2.step.2.step.2 m := rfl

end Backoff

open Backoff in
/-- C9: `Fibonacci(10)` with factor 1 and no cap yields the literal duration
sequence 10, 10, 20, 30, 50, 80, ... ms; with a 50 ms maximal delay it yields
10, 10, 20, 30, 50, 50, 50, ... ms, and every value from the first clamped
position onward (index 4 and later, 0-based) equals exactly 50 ms. -/
theorem C9_fibonacci_sequence :
    FibonacciBackoff.takeDelays (FibonacciBackoff.from_millis 10) 6 = [10, 10, 20, 30, 50, 80] ∧
    FibonacciBackoff.takeDelays ((FibonacciBackoff.from_millis 10).max_delay 50) 7 =
      [10, 10, 20, 30, 50, 50, 50] ∧
    ∀ n, 4 ≤ n →
      FibonacciBackoff.nthDelay ((FibonacciBackoff.from_millis 10).max_delay 50) n = 50 := by
  refine ⟨by decide, by decide, ?_⟩
  intro n hn
  obtain ⟨m, rfl⟩ : ∃ m, n = m + 4 := ⟨n - 4, by omega⟩
  rw [nthDelay_add_four]
  have hstate :
      ((FibonacciBackoff.from_millis 10).max_delay 50).step.2.step.2.step.2.step.2 =
        (⟨50, 80, 1, some 50⟩ : FibonacciBackoff) := by decide
  rw [hstate]
  exact fib50_from_four m

open Backoff in
/-- Witness for C9's clamped-tail clause at the concrete index 6. -/
theorem C9_fibonacci_sequence_witness :
    4 ≤ 6 ∧
      FibonacciBackoff.nthDelay ((FibonacciBackoff.from_millis 10).max_delay 50) 6 = 50 :=
  ⟨by decide, C9_fibonacci_sequence.2.2 6 (by decide)⟩

namespace Sha

/-- 2^32; `u32` arithmetic is done modulo this. -/
def M32 : Nat := 4294967296

/-- 32-bit right rotation (inputs are `< M32`). -/
def rotr (n x : Nat) : Nat := ((x >>> n) ||| (x <<< (32 - n))) % M32

/-- 32-bit bitwise complement via xor with `0xffffffff`. -/
def notw (x : Nat) : Nat := 4294967295 ^^^ x

def ch (x y z : Nat) : Nat := (x &&& y) ^^^ (notw x &&& z)

def maj (x y z : Nat) : Nat := (x &&& y) ^^^ (x &&& z) ^^^ (y &&& z)

def bigSigma0 (x : Nat) : Nat := rotr 2 x ^^^ rotr 13 x ^^^ rotr 22 x

def bigSigma1 (x : Nat) : Nat := rotr 6 x ^^^ rotr 11 x ^^^ rotr 25 x

def smallSigma0 (x : Nat) : Nat := rotr 7 x ^^^ rotr 18 x ^^^ (x >>> 3)

def smallSigma1 (x : Nat) : Nat := rotr 17 x ^^^ rotr 19 x ^^^ (x >>> 10)

/-- The SHA-256 round constants (decimal). -/
def K : List Nat :=
  [1116352408, 1899447441, 3049323471, 3921009573, 961987163, 1508970993,
   2453635748, 2870763221, 3624381080, 310598401, 607225278, 1426881987,
   1925078388, 2162078206, 2614888103, 3248222580, 3835390401, 4022224774,
   264347078, 604807628, 770255983, 1249150122, 1555081692, 1996064986,
   2554220882, 2821834349, 2952996808, 3210313671, 3336571891, 3584528711,
   113926993, 338241895, 666307205, 773529912, 1294757372, 1396182291,
   1695183700, 1986661051, 2177026350, 2456956037, 2730485921, 2820302411,
   3259730800, 3345764771, 3516065817, 3600352804, 4094571909, 275423344,
   430227734, 506948616, 659060556, 883997877, 958139571, 1322822218,
   1537002063, 1747873779, 1955562222, 2024104815, 2227730452, 2361852424,
   2428436474, 2756734187, 3204031479, 3329325298]

/-- The eight 32-bit words of the running hash state. -/
structure Hash8 where
  a : Nat
  b : Nat
  c : Nat
  d : Nat
  e : Nat
  f : Nat
  g : Nat
  h : Nat
deriving DecidableEq, Repr

/-- SHA-256 initial hash value (decimal). -/
def initH : Hash8 :=
  ⟨1779033703, 3144134277, 1013904242, 2773480762,
   1359893119, 2600822924, 528734635, 1541459225⟩

/-- Big-endian 32-bit words from a list of bytes. -/
def toWords : List Nat → List Nat
  | b0 :: b1 :: b2 :: b3 :: rest => (((b0 * 256 + b1) * 256 + b2) * 256 + b3) :: toWords rest
  | _ => []

/-- One message-schedule extension step: appends
`sigma1 w[i-2] + w[i-7] + sigma0 w[i-15] + w[i-16]` (mod 2^32). -/
def extendStep (w : List Nat) : List Nat :=
  let i := w.length
  w ++ [(smallSigma1 (w.getD (i - 2) 0) + w.getD (i - 7) 0 +
         smallSigma0 (w.getD (i - 15) 0) + w.getD (i - 16) 0) % M32]

/-- Iterate the schedule extension `n` times (48 times for SHA-256). -/
def schedule (w : List Nat) : Nat → List Nat
  | 0 => w
  | n + 1 => schedule (extendStep w) n

/-- One SHA-256 compression round. -/
def round (st : Hash8) (kt wt : Nat) : Hash8 :=
  let t1 := (st.h + bigSigma1 st.e + ch st.e st.f st.g + kt + wt) % M32
  let t2 := (bigSigma0 st.a + maj st.a st.b st.c) % M32
  ⟨(t1 + t2) % M32, st.a, st.b, st.c, (st.d + t1) % M32, st.e, st.f, st.g⟩

/-- Run the 64 rounds over the zipped constants/schedule. -/
def rounds (st : Hash8) : List (Nat × Nat) → Hash8
  | [] => st
  | (kt, wt) :: rest => rounds (round st kt wt) rest

/-- Compress one 64-byte block into the running state. -/
def compressBlock (st : Hash8) (block : List Nat) : Hash8 :=
  let w := schedule (toWords block) 48
  let t := rounds st (K.zip w)
  ⟨(st.a + t.a) % M32, (st.b + t.b) % M32, (st.c + t.c) % M32, (st.d + t.d) % M32,
   (st.e + t.e) % M32, (st.f + t.f) % M32, (st.g + t.g) % M32, (st.h + t.h) % M32⟩

/-- Number of zero bytes of SHA-256 padding for a message of length `l`. -/
def padZeros (l : Nat) : Nat := (64 - ((l + 9) % 64)) % 64

/-- The 8-byte big-endian encoding of the bit length of an `l`-byte message. -/
def lenBytes (l : Nat) : List Nat :=
  [((l * 8) >>> 56) % 256, ((l * 8) >>> 48) % 256, ((l * 8) >>> 40) % 256, ((l * 8) >>> 32) % 256,
   ((l * 8) >>> 24) % 256, ((l * 8) >>> 16) % 256, ((l * 8) >>> 8) % 256, (l * 8) % 256]

/-- SHA-256 message padding. -/
def pad (msg : List Nat) : List Nat :=
  msg ++ [128] ++ List.replicate (padZeros msg.length) 0 ++ lenBytes msg.length

/-- Split into 64-byte blocks, structurally recursing on a fuel bounded by
the list length (each step removes at least one element, so the fuel never
runs out on the lists actually passed). -/
def toBlocksAux (fuel : Nat) (l : List Nat) : List (List Nat) :=
  match fuel, l with
  | 0, _ => []
  | _, [] => []
  | f + 1, c :: cs => (c :: cs).take 64 :: toBlocksAux f ((c :: cs).drop 64)

/-- Split into 64-byte blocks. -/
def toBlocks (l : List Nat) : List (List Nat) := toBlocksAux l.length l

/-- Big-endian bytes of one 32-bit word. -/
def wordBytes (w : Nat) : List Nat :=
  [(w >>> 24) % 256, (w >>> 16) % 256, (w >>> 8) % 256, w % 256]

/-- Serialize the final state to the 32-byte digest. -/
def serialize (st : Hash8) : List Nat :=
  wordBytes st.a ++ wordBytes st.b ++ wordBytes st.c ++ wordBytes st.d ++
  wordBytes st.e ++ wordBytes st.f ++ wordBytes st.g ++ wordBytes st.h

/-- SHA-256 of a byte list; embeds `sha2::Sha256::digest` as called by
`checksum` (crates/http-extra/sha256.rs). -/
def sha256 (msg : List Nat) : List Nat :=
  serialize ((toBlocks (pad msg)).foldl compressBlock initH)

theorem sha256_length (msg : List Nat) : (sha256 msg).length = 32 := by
  simp [sha256, serialize, wordBytes]

/-- Value of one hex digit, `none` for a non-hex character
(`faster_hex` accepts `0-9`, `a-f` and `A-F`). -/
def hexVal (c : Char) : Option Nat :=
  if '0' ≤ c ∧ c ≤ '9' then some (c.toNat - 48)
  else if 'a' ≤ c ∧ c ≤ 'f' then some (c.toNat - 87)
  else if 'A' ≤ c ∧ c ≤ 'F' then some (c.toNat - 55)
  else none

/-- Decode consecutive pairs of hex digits to bytes; `none` if some
character is not a hex digit (or a lone trailing digit remains). -/
def hexPairs : List Char → Option (List Nat)
  | [] => some []
  | c1 :: c2 :: rest =>
    match hexVal c1, hexVal c2, hexPairs rest with
    | some hi, some lo, some tl => some ((hi * 16 + lo) :: tl)
    | _, _, _ => none
  | [_] => none

/-- Error cases of `faster_hex::hex_decode` as used by `checksum`. -/
inductive HexError where
  | invalidLength
  | invalidChar
deriving DecidableEq, Repr

instance {ε α : Type} [DecidableEq ε] [DecidableEq α] : DecidableEq (Except ε α)
  | .ok a, .ok b =>
    if h : a = b then .isTrue (by rw [h]) else .isFalse (fun hh => by cases hh; exact h rfl)
  | .error a, .error b =>
    if h : a = b then .isTrue (by rw [h]) else .isFalse (fun hh => by cases hh; exact h rfl)
  | .ok _, .error _ => .isFalse (fun hh => by cases hh)
  | .error _, .ok _ => .isFalse (fun hh => by cases hh)

/-- Embedding of `faster_hex::hex_decode` with a destination buffer of
exactly `src.len() / 2` bytes (as allocated by `checksum`): an odd source
length is an `InvalidLength` error, a non-hex character an `InvalidChar`
error, otherwise the decoded bytes. -/
def hex_decode (cs : List Char) : Except HexError (List Nat) :=
  if cs.length % 2 ≠ 0 then .error .invalidLength
  else
    match hexPairs cs with
    | some bs => .ok bs
    | none => .error .invalidChar

/-- Embedding of `checksum` (crates/http-extra/sha256.rs) for a readable
file: hash the file's bytes with SHA-256, hex-decode the expected digest
into `digest.len() / 2` bytes, and compare byte-for-byte (slice equality). -/
def checksum (file : List Nat) (digest : String) : Except HexError Bool :=
  match hex_decode digest.data with
  | .error e => .error e
  | .ok bytes => .ok (sha256 file == bytes)

theorem hexPairs_length :
    ∀ cs : List Char, (∀ c ∈ cs, (hexVal c).isSome) → cs.length % 2 = 0 →
      ∃ bs, hexPairs cs = some bs ∧ bs.length = cs.length / 2
  | [], _, _ => ⟨[], rfl, rfl⟩
  | [c], _, hlen => by simp at hlen
  | c1 :: c2 :: rest, hhex, hlen => by
    have hlen2 : rest.length % 2 = 0 := by
      simp only [List.length_cons] at hlen
      omega
    obtain ⟨tl, htl, hl⟩ :=
      hexPairs_length rest (fun c hc => hhex c (by simp [hc])) hlen2
    obtain ⟨hi, hhi⟩ := Option.isSome_iff_exists.mp (hhex c1 (by simp))
    obtain ⟨lo, hlo⟩ := Option.isSome_iff_exists.mp (hhex c2 (by simp))
    refine ⟨(hi * 16 + lo) :: tl, ?_, ?_⟩
    · simp [hexPairs, hhi, hlo, htl]
    · simp only [List.length_cons, hl]
      omega

end Sha

open Sha in
/-- C10: for every readable file and every expected-digest string made only
of hex characters whose length is even but different from 64,
`checksum(filePath, expectedHexDigest)` returns `Ok(false)` rather than a
decode error: the wrong-length digest decodes successfully and merely fails
the byte-for-byte comparison against the 32-byte SHA-256 output. -/
theorem C10_checksum_wrong_length (file : List Nat) (digest : String)
    (hhex : ∀ c ∈ digest.data, (hexVal c).isSome)
    (heven : digest.data.length % 2 = 0)
    (hne : digest.data.length ≠ 64) :
    checksum file digest = .ok false := by
  obtain ⟨bs, hbs, hblen⟩ := hexPairs_length digest.data hhex heven
  have hdec : hex_decode digest.data = .ok bs := by
    unfold hex_decode
    rw [if_neg (not_not_intro heven), hbs]
  have hlen32 : (sha256 file).length = 32 := sha256_length file
  have hne' : sha256 file ≠ bs := by
    intro h
    rw [h] at hlen32
    omega
  unfold checksum
  rw [hdec]
  simp [beq_eq_false_iff_ne.mpr hne']

open Sha in
/-- Witness for C10 at the concrete digest string "abcd" (hex, even length
4 ≠ 64) and the empty file. -/
theorem C10_checksum_wrong_length_witness :
    (∀ c ∈ "abcd".data, (hexVal c).isSome) ∧ "abcd".data.length % 2 = 0 ∧
      "abcd".data.length ≠ 64 ∧ checksum [] "abcd" = .ok false :=
  ⟨by decide, by decide, by decide,
    C10_checksum_wrong_length [] "abcd" (by decide) (by decide) (by decide)⟩

namespace Client

/-- `DownloadStatus` (crates/http-extra/download.rs). -/
inductive DownloadStatus where
  | notStarted
  | success
  | failed (reason : String)
  | skipped (reason : String)
deriving DecidableEq, Repr

/-- The observable inputs of one `fetch_file` run
(crates/http-extra/client.rs): the metadata probe's reported content length
and range-support header, the staging (`.part`) file's length as read after
the precondition step, and whether the GET's HTTP status is a success. -/
structure FetchInput where
  contentLength : Option Nat
  acceptRanges : Option String
  tempLen : Nat
  statusSuccess : Bool
deriving DecidableEq, Repr

/-- The observable effects of one `fetch_file` run: whether the staging file
was truncated (`set_len(0)`), whether a GET was issued, the byte-range header
attached to it, the reported summary fields and the final status. -/
structure FetchTrace where
  truncated : Bool
  getIssued : Bool
  rangeHeader : Option (Nat × Nat)
  status : DownloadStatus
  resumable : Bool
  summaryLength : Nat
deriving DecidableEq, Repr

/-- Embedding of `fetch_file` (crates/http-extra/client.rs, lines 39-118),
abstracting the chunk-streaming loop (which only writes body bytes).  The
source reads the staging length, then — only when the probe returned BOTH a
content length and a range-support header — computes
`resumable = (accept_ranges == "bytes")`, truncates the staging file when not
resumable, short-circuits the network when the content length equals the
(pre-truncation) staging length, and attaches a range header when resumable
with a non-empty staging file; in every other case it falls through to a GET
with no range header and no truncation. -/
def fetch_file (inp : FetchInput) : FetchTrace :=
  match inp.contentLength, inp.acceptRanges with
  | some content_length, some accept_ranges =>
    let resumable := accept_ranges == "bytes"
    let truncated := !resumable
    if content_length == inp.tempLen then
      { truncated := truncated, getIssued := false, rangeHeader := none,
        status := .success, resumable := resumable, summaryLength := content_length }
    else
      let range :=
        if resumable && decide (inp.tempLen > 0) then some (inp.tempLen, content_length)
        else none
      if inp.statusSuccess then
        { truncated := truncated, getIssued := true, rangeHeader := range,
          status := .success, resumable := resumable, summaryLength := content_length }
      else
        { truncated := truncated, getIssued := true, rangeHeader := range,
          status := .failed "Response exception", resumable := resumable,
          summaryLength := content_length }
  | _, _ =>
    if inp.statusSuccess then
      { truncated := false, getIssued := true, rangeHeader := none,
        status := .success, resumable := false, summaryLength := 0 }
    else
      { truncated := false, getIssued := true, rangeHeader := none,
        status := .failed "Response exception", resumable := false, summaryLength := 0 }

/-- A directory entry as seen by `download_dir_precondition`: file name
(as a character list; all names in play are ASCII, where Rust's byte indices
and character indices agree), whether it is a regular file, and its length. -/
structure DirEntry where
  name : List Char
  isFile : Bool
  size : Nat
deriving DecidableEq, Repr

/-- Index of the last '.' in a name (`str::rfind(".")`). -/
def lastDotIdx : List Char → Option Nat
  | [] => none
  | c :: rest =>
    match lastDotIdx rest with
    | some i => some (i + 1)
    | none => if c = '.' then some 0 else none

/-- Embedding of `download_dir_precondition` (crates/http-extra/client.rs,
lines 133-225), restricted to the chosen file name and the truncate-on-open
flag (the function then opens a placeholder and a `.part` staging file under
that name).  Inputs: whether the destination directory exists and its
entries.  `none` models the I/O error of opening the same-named file when it
cannot be found.  The collision count is the number of directory entries
that are regular files whose name equals the requested name exactly; a
non-empty same-named file yields `<stem>_(count)<ext>` with the extension
split at the last dot. -/
def download_dir_precondition (dirExists : Bool) (entries : List DirEntry)
    (file_name : List Char) : Option (List Char × Bool) :=
  if !dirExists then some (file_name, true)
  else
    let count := entries.countP (fun e => e.isFile && e.name == file_name)
    if count > 0 then
      match entries.find? (fun e => e.name == file_name) with
      | none => none
      | some e =>
        if e.size == 0 then some (file_name, false)
        else
          match lastDotIdx file_name with
          | some index =>
            some (file_name.take index ++
              ("_(".data ++ (Nat.repr count).data ++ ")".data) ++ file_name.drop index, true)
          | none =>
            some (file_name ++ ("_(".data ++ (Nat.repr count).data ++ ")".data), true)
    else some (file_name, true)

theorem countP_name_unique (n : List Char) :
    ∀ (entries : List DirEntry) (e : DirEntry),
      (entries.map DirEntry.name).Nodup → e ∈ entries → e.name = n → e.isFile = true →
      entries.countP (fun x => x.isFile && x.name == n) = 1 := by
  intro entries
  induction entries with
  | nil => intro e _ he; simp at he
  | cons x rest ih =>
    intro e hnd hmem hname hfile
    have hnd' : (rest.map DirEntry.name).Nodup := by
      simpa using hnd.of_cons
    rcases List.mem_cons.mp hmem with rfl | hmem'
    · have hzero : rest.countP (fun x => x.isFile && x.name == n) = 0 := by
        rw [List.countP_eq_zero]
        intro y hy
        have hyname : y.name ≠ e.name := by
          intro hcontra
          have : e.name ∈ rest.map DirEntry.name := by
            exact List.mem_map.mpr ⟨y, hy, hcontra⟩
          exact (List.nodup_cons.mp (by simpa using hnd)).1 this
        simp only [Bool.and_eq_true, beq_iff_eq]
        intro hcontra
        exact hyname (hcontra.2.trans hname.symm)
      rw [List.countP_cons_of_pos _ _ (by simp [hfile, hname]), hzero]
    · have hxname : x.name ≠ n := by
        intro hcontra
        have : x.name ∈ rest.map DirEntry.name := by
          rw [← hname] at hcontra
          rw [hcontra, hname]
          exact List.mem_map.mpr ⟨e, hmem', hname⟩
        exact (List.nodup_cons.mp (by simpa using hnd)).1 this
      rw [List.countP_cons_of_neg _ _ (by simp [hxname])]
      exact ih e hnd' hmem' hname hfile

theorem find_name_unique (n : List Char) :
    ∀ (entries : List DirEntry) (e : DirEntry),
      (entries.map DirEntry.name).Nodup → e ∈ entries → e.name = n →
      entries.find? (fun x => x.name == n) = some e := by
  intro entries
  induction entries with
  | nil => intro e _ he; simp at he
  | cons x rest ih =>
    intro e hnd hmem hname
    rcases List.mem_cons.mp hmem with rfl | hmem'
    · simp [List.find?_cons_of_pos, hname]
    · have hxname : x.name ≠ n := by
        intro hcontra
        have : x.name ∈ rest.map DirEntry.name := by
          rw [hcontra, ← hname]
          exact List.mem_map.mpr ⟨e, hmem', rfl⟩
        exact (List.nodup_cons.mp (by simpa using hnd)).1 this
      rw [List.find?_cons_of_neg _ (by simp [hxname])]
      exact ih e (by simpa using hnd.of_cons) hmem' hname

end Client

/-- C5 fails on the code: a probe whose response lacks the range-support
header (here: content length 100, no `Accept-Ranges`, staging length 5) is
not resumable, yet `fetch_file` does not truncate the staging file — the
truncation only happens inside the branch requiring both probe headers to be
present. -/
theorem C5_counterexample :
    (Client.fetch_file ⟨some 100, none, 5, true⟩).truncated = false ∧
      (⟨some 100, none, 5, true⟩ : Client.FetchInput).acceptRanges ≠ some "bytes" := by
  decide

/-- C5 (amended): the engine truncates the staging file to zero before the
GET exactly when the metadata probe returned BOTH a content length and a
range-support header and that header differs from "bytes"; in particular it
never truncates when the header is absent, and when it does truncate it does
so regardless of the staging file's current size. -/
theorem C5_truncation_condition (inp : Client.FetchInput) :
    (Client.fetch_file inp).truncated = true ↔
      (∃ cl, inp.contentLength = some cl) ∧
        ∃ ar, inp.acceptRanges = some ar ∧ ar ≠ "bytes" := by
  rcases hc : inp.contentLength with _ | cl <;> rcases ha : inp.acceptRanges with _ | ar
  · constructor
    · intro h
      exfalso
      simp only [Client.fetch_file, hc, ha] at h
      split at h <;> simp at h
    · rintro ⟨⟨cl, hcl⟩, -⟩
      cases hcl
  · constructor
    · intro h
      exfalso
      simp only [Client.fetch_file, hc, ha] at h
      split at h <;> simp at h
    · rintro ⟨⟨cl, hcl⟩, -⟩
      cases hcl
  · constructor
    · intro h
      exfalso
      simp only [Client.fetch_file, hc, ha] at h
      split at h <;> simp at h
    · rintro ⟨-, ar, har, -⟩
      cases har
  · have htr : (Client.fetch_file inp).truncated = !(ar == "bytes") := by
      simp only [Client.fetch_file, hc, ha]
      split
      · rfl
      · split <;> rfl
    rw [htr]
    constructor
    · intro h
      exact ⟨⟨cl, rfl⟩, ar, rfl, by simpa using h⟩
    · rintro ⟨-, ar', har', hne⟩
      cases har'
      simpa using hne

/-- C6 fails on the code: with the destination directory containing a
non-empty `report.txt` and a non-empty `report_(1).txt` (the state after a
second download), a third download named `report.txt` is again assigned
`report_(1).txt`, not `report_(2).txt` — the collision count only counts
directory entries whose name equals the requested name exactly, and a real
directory holds at most one such entry. -/
theorem C6_counterexample :
    Client.download_dir_precondition true
        [⟨"report.txt".data, true, 100⟩, ⟨"report_(1).txt".data, true, 200⟩]
        "report.txt".data =
      some ("report_(1).txt".data, true) ∧
    "report_(1).txt".data ≠ "report_(2).txt".data := by
  decide

open Client in
/-- C6 (amended): when the destination directory contains a non-empty
regular file with the requested name, the download is saved under a name
with `_(n)` inserted before the file extension where `n` is the number of
directory entries whose name equals the requested name exactly; since a real
directory (entry names pairwise distinct) holds at most one such entry, the
inserted tag is always `_(1)`: a directory containing non-empty `report.txt`
makes a new download named `report.txt` save as `report_(1).txt`, and a
third download with the same name again yields `report_(1).txt`. -/
theorem C6_collision_naming (entries : List Client.DirEntry) (file_name : List Char)
    (e : Client.DirEntry)
    (hnd : (entries.map Client.DirEntry.name).Nodup)
    (hmem : e ∈ entries) (hname : e.name = file_name)
    (hfile : e.isFile = true) (hsize : e.size ≠ 0) :
    Client.download_dir_precondition true entries file_name =
      some ((match Client.lastDotIdx file_name with
        | some index => file_name.take index ++ "_(1)".data ++ file_name.drop index
        | none => file_name ++ "_(1)".data), true) := by
  have hcount := countP_name_unique file_name entries e hnd hmem hname hfile
  have hfind := find_name_unique file_name entries e hnd hmem hname
  unfold Client.download_dir_precondition
  rw [hcount, hfind]
  simp only [Bool.not_true, Bool.false_eq_true, if_false, gt_iff_lt, Nat.lt_irrefl,
    Nat.zero_lt_one, if_true, beq_eq_false_iff_ne]
  rw [if_neg (by simp [hsize])]
  have hrepr : (Nat.repr 1).data = ['1'] := by decide
  cases hdot : Client.lastDotIdx file_name <;> simp [hrepr]

open Client in
/-- Witness for C6 (amended) at the concrete directory containing one
non-empty `report.txt`: the new download saves as `report_(1).txt`. -/
theorem C6_collision_naming_witness :
    Client.download_dir_precondition true [⟨"report.txt".data, true, 100⟩] "report.txt".data =
      some ("report_(1).txt".data, true) := by
  have h := C6_collision_naming [⟨"report.txt".data, true, 100⟩] "report.txt".data
    ⟨"report.txt".data, true, 100⟩ (by simp) (by simp) rfl rfl (by decide)
  exact h.trans (by decide)

namespace Pull

/-- A blob reference inside a manifest (`Layer`/`Config` in src/cmd/pull.rs). -/
structure BlobRef where
  mediaType : String
  digest : String
  size : Nat
deriving DecidableEq, Repr

/-- `Manifest` (src/cmd/pull.rs). -/
structure Manifest where
  schemaVersion : Nat
  mediaType : String
  config : BlobRef
  layers : List BlobRef
deriving DecidableEq, Repr

/-- The model directory's files, keyed by file name. -/
def Fs : Type := String → Option (List Nat)

/-- Write one file. -/
def update (fs : Fs) (k : String) (v : List Nat) : Fs :=
  fun q => if q = k then some v else fs q

/-- Observable actions of a pull run: the manifest fetch, entering
`save_res_to_local` for a blob, a blob GET, the download summary produced by
a completed blob download, a metadata-store write of a blob's local path,
and the final pull-status flag write. -/
inductive PullEvent where
  | manifestGet
  | handleBlob (digest : String)
  | blobGet (url : String)
  | outcome (status : Client.DownloadStatus)
  | persist (filename : String) (size : Nat) (media : String)
  | setPullStatus (s : String)
deriving DecidableEq, Repr

/-- Remove every occurrence of `"sha256:"` (Rust `str::replace("sha256:", "")`),
recursing on a fuel bounded by the string length (each step consumes at
least one character). -/
def stripShaAux : Nat → List Char → List Char
  | 0, s => s
  | _ + 1, [] => []
  | f + 1, c :: rest =>
    if "sha256:".data.isPrefixOf (c :: rest) then stripShaAux f (rest.drop 6)
    else c :: stripShaAux f rest

/-- `digest.replace("sha256:", "")`. -/
def stripSha256 (s : String) : String := ⟨stripShaAux s.data.length s.data⟩

/-- `digest.replace(":", "-")`: a one-character pattern, so the global
replacement is a character-wise map. -/
def colonToDash (s : String) : String :=
  ⟨s.data.map (fun c => if c = ':' then '-' else c)⟩

/-- Embedding of `need_retry_download` (src/cmd/pull.rs, lines 184-195):
re-download when the file does not exist, when its checksum cannot be
computed, or when the checksum does not match. -/
def need_retry_download (fileBytes : Option (List Nat)) (digest : String) : Bool :=
  match fileBytes with
  | none => true
  | some bs =>
    match Sha.checksum bs (stripSha256 digest) with
    | .error _ => true
    | .ok c => !c

/-- Embedding of `file_name` (src/cmd/pull.rs, lines 224-236) over an
abstract media-type table (`db::get_media_type`): `none` when the media type
is unknown, otherwise the derived `<media>-<digest>.<ext>` local file name
and the media name. -/
def file_name (mediaTable : String → Option (String × String))
    (media_type : String) (digest : String) : Option (String × String) :=
  match mediaTable media_type with
  | none => none
  | some (media, fileType) => some (media ++ "-" ++ digest ++ "." ++ fileType, media)

/-- Embedding of `save_res_to_local` (src/cmd/pull.rs, lines 140-182).
`net` abstracts the retried download (`retry::spawn` around
`download::spawn` followed by `.expect`): `net url = none` models a download
whose retries were exhausted (the source panics — an `.error` here), and
`net url = some bytes` a download that completed and wrote `bytes` to the
file, producing a summary (recorded as an `.outcome .success` event).  After
a download the source re-reads the file (just written) and panics on a
checksum decode failure or mismatch.  An unknown media type returns without
doing anything; a file already present with a matching checksum skips the
network entirely; `db::save_model_file_path` is the `.persist` event. -/
def save_res_to_local (mediaTable : String → Option (String × String))
    (net : String → Option (List Nat)) (name : String) (fs : Fs) (b : BlobRef) :
    List PullEvent × Except String Fs :=
  match file_name mediaTable b.mediaType (stripSha256 b.digest) with
  | none => ([.handleBlob b.digest], .ok fs)
  | some (filename, media) =>
    if need_retry_download (fs filename) b.digest then
      let blob_url := "/v2/library/" ++ name ++ "/blobs/" ++ colonToDash b.digest
      match net blob_url with
      | none =>
        ([.handleBlob b.digest, .blobGet blob_url], .error "could not download the resources")
      | some bytes =>
        match Sha.checksum bytes (stripSha256 b.digest) with
        | .error _ =>
          ([.handleBlob b.digest, .blobGet blob_url, .outcome .success],
            .error "There is no way to obtain the digest of the file")
        | .ok true =>
          ([.handleBlob b.digest, .blobGet blob_url, .outcome .success,
            .persist filename b.size media], .ok (update fs filename bytes))
        | .ok false =>
          ([.handleBlob b.digest, .blobGet blob_url, .outcome .success],
            .error "checksum failed")
    else ([.handleBlob b.digest, .persist filename b.size media], .ok fs)

/-- Process a list of blobs in order, stopping at the first panic; the
source's `for layer in manifest.layers` loop followed by the `config` call
is this function applied to `layers ++ [config]`. -/
def runBlobs (mediaTable : String → Option (String × String))
    (net : String → Option (List Nat)) (name : String) :
    Fs → List BlobRef → List PullEvent × Except String Fs
  | fs, [] => ([], .ok fs)
  | fs, b :: rest =>
    match save_res_to_local mediaTable net name fs b with
    | (evs, .error msg) => (evs, .error msg)
    | (evs, .ok fs1) =>
      match runBlobs mediaTable net name fs1 rest with
      | (evs2, r) => (evs ++ evs2, r)

/-- Embedding of `pull_model_from_registry` (src/cmd/pull.rs, lines 20-138)
after configuration loading: fetch the manifest (a GET on every run), check
the recorded schema dialect (`schemaOk`; a mismatch panics), process every
layer blob in manifest order and then the config blob, and finally record
the pull status as Completed. -/
def pull_model_from_registry (mediaTable : String → Option (String × String))
    (schemaOk : Bool) (net : String → Option (List Nat)) (name : String)
    (fs : Fs) (m : Manifest) : List PullEvent × Except String Fs :=
  if !schemaOk then ([.manifestGet], .error "schema mismatch")
  else
    match runBlobs mediaTable net name fs (m.layers ++ [m.config]) with
    | (evs, .error msg) => (.manifestGet :: evs, .error msg)
    | (evs, .ok fs1) => (.manifestGet :: (evs ++ [.setPullStatus "Completed"]), .ok fs1)

/-- The digests of the blobs handled, in order. -/
def handledDigests (evs : List PullEvent) : List String :=
  evs.filterMap (fun ev => match ev with | .handleBlob d => some d | _ => none)

/-- The blob GET urls issued, in order. -/
def blobGets (evs : List PullEvent) : List String :=
  evs.filterMap (fun ev => match ev with | .blobGet u => some u | _ => none)

/-- The download summaries recorded, in order. -/
def outcomes (evs : List PullEvent) : List Client.DownloadStatus :=
  evs.filterMap (fun ev => match ev with | .outcome s => some s | _ => none)

theorem handledDigests_append (a b : List PullEvent) :
    handledDigests (a ++ b) = handledDigests a ++ handledDigests b := by
  simp [handledDigests]

theorem blobGets_append (a b : List PullEvent) :
    blobGets (a ++ b) = blobGets a ++ blobGets b := by
  simp [blobGets]

theorem outcomes_append (a b : List PullEvent) :
    outcomes (a ++ b) = outcomes a ++ outcomes b := by
  simp [outcomes]

theorem save_res_handled (mediaTable : String → Option (String × String))
    (net : String → Option (List Nat)) (name : String) (fs : Fs) (b : BlobRef) :
    handledDigests (save_res_to_local mediaTable net name fs b).1 = [b.digest] := by
  unfold save_res_to_local
  rcases hfn : file_name mediaTable b.mediaType (stripSha256 b.digest) with _ | ⟨fnm, media⟩
  · simp [handledDigests]
  · by_cases hr : need_retry_download (fs fnm) b.digest
    · simp only [hr, if_true]
      rcases hnet : net ("/v2/library/" ++ name ++ "/blobs/" ++ colonToDash b.digest) with _ | bs
      · simp [handledDigests, hnet]
      · rcases hck : Sha.checksum bs (stripSha256 b.digest) with e | c
        · simp [handledDigests, hnet, hck]
        · cases c <;> simp [handledDigests, hnet, hck]
    · simp [handledDigests, hr]

theorem runBlobs_ok_handled (mediaTable : String → Option (String × String))
    (net : String → Option (List Nat)) (name : String) :
    ∀ (bs : List BlobRef) (fs : Fs) (evs : List PullEvent) (fs1 : Fs),
      runBlobs mediaTable net name fs bs = (evs, .ok fs1) →
      handledDigests evs = bs.map BlobRef.digest := by
  intro bs
  induction bs with
  | nil =>
    intro fs evs fs1 h
    simp only [runBlobs] at h
    cases h
    simp [handledDigests]
  | cons b rest ih =>
    intro fs evs fs1 h
    simp only [runBlobs] at h
    rcases hsr : save_res_to_local mediaTable net name fs b with ⟨evsb, rb⟩
    rw [hsr] at h
    cases rb with
    | error msg => simp at h
    | ok fsb =>
      dsimp only at h
      rcases hrb : runBlobs mediaTable net name fsb rest with ⟨evs2, r2⟩
      rw [hrb] at h
      dsimp only at h
      injection h with h1 h2
      subst h1
      cases r2 with
      | error msg => simp at h2
      | ok fsx =>
        have h3 : handledDigests evsb = [b.digest] := by
          have hh := save_res_handled mediaTable net name fs b
          rw [hsr] at hh
          exact hh
        rw [handledDigests_append, h3, ih fsb evs2 fsx hrb]
        simp

end Pull

namespace Pull

theorem save_res_local_hit (mediaTable : String → Option (String × String))
    (net : String → Option (List Nat)) (name : String) (fs : Fs) (b : BlobRef)
    (fnm media : String)
    (hfn : file_name mediaTable b.mediaType (stripSha256 b.digest) = some (fnm, media))
    (hnr : need_retry_download (fs fnm) b.digest = false) :
    save_res_to_local mediaTable net name fs b =
      ([.handleBlob b.digest, .persist fnm b.size media], .ok fs) := by
  unfold save_res_to_local
  rw [hfn]
  simp [hnr]

theorem runBlobs_all_local (mediaTable : String → Option (String × String))
    (net : String → Option (List Nat)) (name : String) :
    ∀ (bs : List BlobRef) (fs : Fs),
      (∀ b ∈ bs, ∀ fnm media,
        file_name mediaTable b.mediaType (stripSha256 b.digest) = some (fnm, media) →
        need_retry_download (fs fnm) b.digest = false) →
      blobGets (runBlobs mediaTable net name fs bs).1 = [] ∧
      outcomes (runBlobs mediaTable net name fs bs).1 = [] ∧
      (runBlobs mediaTable net name fs bs).2 = .ok fs := by
  intro bs
  induction bs with
  | nil =>
    intro fs _
    refine ⟨?_, ?_, rfl⟩ <;> simp [runBlobs, blobGets, outcomes]
  | cons b rest ih =>
    intro fs hloc
    obtain ⟨h1, h2, h3⟩ := ih fs (fun b' hb' => hloc b' (List.mem_cons_of_mem _ hb'))
    rcases hrb : runBlobs mediaTable net name fs rest with ⟨evs2, r2⟩
    rw [hrb] at h1 h2 h3
    dsimp only at h1 h2 h3
    subst h3
    rcases hfn : file_name mediaTable b.mediaType (stripSha256 b.digest) with _ | ⟨fnm, media⟩
    · have hsr : save_res_to_local mediaTable net name fs b = ([.handleBlob b.digest], .ok fs) := by
        unfold save_res_to_local
        rw [hfn]
      simp only [runBlobs, hsr, hrb]
      refine ⟨?_, ?_, by trivial⟩
      · rw [blobGets_append, h1]
        simp [blobGets]
      · rw [outcomes_append, h2]
        simp [outcomes]
    · have hnr := hloc b (List.mem_cons_self _ _) fnm media hfn
      have hsr := save_res_local_hit mediaTable net name fs b fnm media hfn hnr
      simp only [runBlobs, hsr, hrb]
      refine ⟨?_, ?_, by trivial⟩
      · rw [blobGets_append, h1]
        simp [blobGets]
      · rw [outcomes_append, h2]
        simp [outcomes]

/-- A media-type table knowing no media type: every blob is skipped before
any filesystem or network access, leaving only the handling order visible. -/
def mediaTableNone : String → Option (String × String) := fun _ => none

/-- A network serving nothing: any blob GET fails. -/
def netNone : String → Option (List Nat) := fun _ => none

/-- An empty model directory. -/
def fsEmpty : Fs := fun _ => none

/-- A manifest with one layer (digest `sha256:ll`) and a config blob
(digest `sha256:cc`), used to observe processing order. -/
def mOrder : Manifest := ⟨2, "application/vnd.manifest", ⟨"cm", "sha256:cc", 1⟩,
  [⟨"lm", "sha256:ll", 2⟩]⟩

/-- The bytes of "Hello, World!" (the repository's own checksum test vector). -/
def helloBytes : List Nat := [72, 101, 108, 108, 111, 44, 32, 87, 111, 114, 108, 100, 33]

/-- A media-type table mapping `application/model` to media `model` with
file extension `gguf`. -/
def mediaTableModel : String → Option (String × String) :=
  fun mt => if mt = "application/model" then some ("model", "gguf") else none

/-- A blob whose digest is the SHA-256 of `helloBytes`. -/
def helloBlob : BlobRef :=
  ⟨"application/model",
    "sha256:dffd6021bb2bd5b0af676290809ec3a53191dd81c7f70a4b28688a362182986f", 13⟩

/-- The local file name derived for `helloBlob`. -/
def helloFileName : String :=
  "model-dffd6021bb2bd5b0af676290809ec3a53191dd81c7f70a4b28688a362182986f.gguf"

/-- A model directory already containing `helloBlob`'s file with matching
content. -/
def fsHello : Fs := fun k => if k = helloFileName then some helloBytes else none

/-- A manifest whose only blob is `helloBlob` (as config). -/
def mHello : Manifest := ⟨2, "application/vnd.manifest", helloBlob, []⟩

end Pull

/-- C3 fails on the code: on a manifest with one layer (`sha256:ll`) and a
config blob (`sha256:cc`), the pull pipeline handles the layer FIRST and the
config LAST — `pull_model_from_registry` loops over `manifest.layers` before
making the `manifest.config` call — so the order is not "config first, then
layers". -/
theorem C3_counterexample :
    Pull.handledDigests (Pull.pull_model_from_registry Pull.mediaTableNone true Pull.netNone
        "m" Pull.fsEmpty Pull.mOrder).1 = ["sha256:ll", "sha256:cc"] ∧
      (["sha256:ll", "sha256:cc"] : List String) ≠ ["sha256:cc", "sha256:ll"] := by
  decide

/-- C3 (amended): for every manifest, the pull pipeline processes blobs
sequentially and in deterministic order — the layer blobs in manifest order
first, then the config blob. -/
theorem C3_blob_order (mediaTable : String → Option (String × String))
    (net : String → Option (List Nat)) (name : String) (fs : Pull.Fs) (m : Pull.Manifest)
    (evs : List Pull.PullEvent) (fs1 : Pull.Fs)
    (hrun : Pull.pull_model_from_registry mediaTable true net name fs m = (evs, .ok fs1)) :
    Pull.handledDigests evs = m.layers.map Pull.BlobRef.digest ++ [m.config.digest] := by
  unfold Pull.pull_model_from_registry at hrun
  rw [if_neg (by decide)] at hrun
  rcases hrb : Pull.runBlobs mediaTable net name fs (m.layers ++ [m.config]) with ⟨evs0, r0⟩
  rw [hrb] at hrun
  cases r0 with
  | error msg => simp at hrun
  | ok fsx =>
    dsimp only at hrun
    injection hrun with h1 h2
    subst h1
    have hall := Pull.runBlobs_ok_handled mediaTable net name (m.layers ++ [m.config])
      fs evs0 fsx hrb
    have hh : Pull.handledDigests
        (.manifestGet :: (evs0 ++ [.setPullStatus "Completed"])) =
        Pull.handledDigests evs0 := by
      simp [Pull.handledDigests]
    rw [hh, hall]
    simp

/-- Witness for C3 (amended) on the concrete one-layer manifest: the handled
order is the layer then the config. -/
theorem C3_blob_order_witness :
    Pull.handledDigests (Pull.pull_model_from_registry Pull.mediaTableNone true Pull.netNone
        "m" Pull.fsEmpty Pull.mOrder).1 = ["sha256:ll", "sha256:cc"] := by
  have hrun : Pull.pull_model_from_registry Pull.mediaTableNone true Pull.netNone
      "m" Pull.fsEmpty Pull.mOrder =
      ([.manifestGet, .handleBlob "sha256:ll", .handleBlob "sha256:cc",
        .setPullStatus "Completed"], .ok Pull.fsEmpty) := rfl
  have h := C3_blob_order Pull.mediaTableNone Pull.netNone "m" Pull.fsEmpty Pull.mOrder _ _ hrun
  rw [hrun]
  exact h.trans (by decide)

/-- C4 fails on the code: with the blob's derived local file already present
and checksum-matching (exactly the state of a second run with no remote
changes), the pull run performs no blob GET — but it records NO download
outcome at all for that blob: nothing is recorded as `Skipped`
(`DownloadStatus::Skipped` is never constructed anywhere in the repository),
and the run still performs the manifest GET, so a second run does not
perform zero network GETs either. -/
theorem C4_counterexample :
    (Pull.pull_model_from_registry Pull.mediaTableModel true Pull.netNone "hello"
        Pull.fsHello Pull.mHello).1 =
      [.manifestGet, .handleBlob Pull.helloBlob.digest,
        .persist Pull.helloFileName 13 "model", .setPullStatus "Completed"] ∧
    Pull.outcomes (Pull.pull_model_from_registry Pull.mediaTableModel true Pull.netNone "hello"
        Pull.fsHello Pull.mHello).1 = [] ∧
    Pull.blobGets (Pull.pull_model_from_registry Pull.mediaTableModel true Pull.netNone "hello"
        Pull.fsHello Pull.mHello).1 = [] := by
  have h1 : (Pull.pull_model_from_registry Pull.mediaTableModel true Pull.netNone "hello"
      Pull.fsHello Pull.mHello).1 =
      [.manifestGet, .handleBlob Pull.helloBlob.digest,
        .persist Pull.helloFileName 13 "model", .setPullStatus "Completed"] := by
    decide
  refine ⟨h1, ?_, ?_⟩ <;> rw [h1] <;> decide

/-- C4 (amended): for every blob whose derived local file already exists
with a checksum matching its digest, the pull pipeline performs no network
call for that blob and produces no download outcome whatsoever (in
particular nothing is recorded as `Skipped`; the blob's path is still
persisted); consequently a run in which every blob with a known media type
is already locally valid — the state after a previous successful run with no
remote changes — performs zero blob GETs, records zero download outcomes,
and leaves the model directory unchanged (the manifest GET still happens). -/
theorem C4_local_blob_skip (mediaTable : String → Option (String × String))
    (net : String → Option (List Nat)) (name : String) (fs : Pull.Fs)
    (b : Pull.BlobRef) (m : Pull.Manifest) :
    (∀ fnm media,
      Pull.file_name mediaTable b.mediaType (Pull.stripSha256 b.digest) = some (fnm, media) →
      Pull.need_retry_download (fs fnm) b.digest = false →
      Pull.save_res_to_local mediaTable net name fs b =
        ([.handleBlob b.digest, .persist fnm b.size media], .ok fs)) ∧
    ((∀ b' ∈ m.layers ++ [m.config], ∀ fnm media,
        Pull.file_name mediaTable b'.mediaType (Pull.stripSha256 b'.digest) = some (fnm, media) →
        Pull.need_retry_download (fs fnm) b'.digest = false) →
      Pull.blobGets (Pull.pull_model_from_registry mediaTable true net name fs m).1 = [] ∧
      Pull.outcomes (Pull.pull_model_from_registry mediaTable true net name fs m).1 = [] ∧
      (Pull.pull_model_from_registry mediaTable true net name fs m).2 = .ok fs) := by
  constructor
  · intro fnm media hfn hnr
    exact Pull.save_res_local_hit mediaTable net name fs b fnm media hfn hnr
  · intro hloc
    obtain ⟨h1, h2, h3⟩ :=
      Pull.runBlobs_all_local mediaTable net name (m.layers ++ [m.config]) fs hloc
    unfold Pull.pull_model_from_registry
    rw [if_neg (by decide)]
    rcases hrb : Pull.runBlobs mediaTable net name fs (m.layers ++ [m.config]) with ⟨evs0, r0⟩
    rw [hrb] at h1 h2 h3
    dsimp only at h1 h2 h3
    subst h3
    dsimp only
    refine ⟨?_, ?_, rfl⟩
    · rw [show Pull.blobGets (.manifestGet :: (evs0 ++ [.setPullStatus "Completed"])) =
          Pull.blobGets evs0 ++ Pull.blobGets [.setPullStatus "Completed"] from by
            simp [Pull.blobGets]]
      rw [h1]
      simp [Pull.blobGets]
    · rw [show Pull.outcomes (.manifestGet :: (evs0 ++ [.setPullStatus "Completed"])) =
          Pull.outcomes evs0 ++ Pull.outcomes [.setPullStatus "Completed"] from by
            simp [Pull.outcomes]]
      rw [h2]
      simp [Pull.outcomes]

/-- Witness for C4 (amended) on the concrete already-valid directory: the
run issues no blob GET and records no outcome. -/
theorem C4_local_blob_skip_witness :
    Pull.blobGets (Pull.pull_model_from_registry Pull.mediaTableModel true Pull.netNone "hello"
        Pull.fsHello Pull.mHello).1 = [] ∧
    Pull.outcomes (Pull.pull_model_from_registry Pull.mediaTableModel true Pull.netNone "hello"
        Pull.fsHello Pull.mHello).1 = [] := by
  have h := (C4_local_blob_skip Pull.mediaTableModel Pull.netNone "hello" Pull.fsHello
      Pull.helloBlob Pull.mHello).2 ?_
  · exact ⟨h.1, h.2.1⟩
  · intro b' hb' fnm media hfn
    have hb2 : b' = Pull.helloBlob := by
      simpa [Pull.mHello] using hb'
    subst hb2
    have hfn2 : Pull.file_name Pull.mediaTableModel Pull.helloBlob.mediaType
        (Pull.stripSha256 Pull.helloBlob.digest) = some (Pull.helloFileName, "model") := by
      decide
    rw [hfn2] at hfn
    have hpair := Option.some.inj hfn
    injection hpair with hf hm
    subst hf
    subst hm
    decide

namespace Sync

/-- The fields of a `ModelInfo` catalog entry relevant to persistence
bookkeeping (src/db/model.rs); the remaining scraped fields (introduction,
counts, summary, readme, variant list, raw html) ride along unchanged and
do not influence any control flow modelled here. -/
structure MI where
  title : String
  rawDigest : String
deriving DecidableEq, Repr

/-- The observable outcome class of one `insert_model_info` transaction
(src/db/model.rs, lines 121-195):
* `success` — every statement succeeded and the transaction committed
  (the source returns `Ok(true)`; note the committed transaction ALSO sets
  the config row `insert_model_info_completed` to `Completed`);
* `rollback` — some statement failed and the rollback succeeded
  (`rollback_and_return`: the source returns `Ok(false)`, nothing persisted);
* `failure` — the function returned `Err(_)` (failing to open the
  transaction, a failing commit, or a failing rollback; nothing persisted). -/
inductive InsertFate where
  | success
  | rollback
  | failure
deriving DecidableEq, Repr

/-- The metadata store state touched by the catalog sync run: the persisted
`(title, raw_digest)` rows of `model_info`, the `insert_model_info_completed`
config register, the `init_status` config register, and the provenance copy
of the library page. -/
structure SyncDb where
  entries : List (String × String)
  insertFlag : String
  initStatus : String
  libraryRaw : Option String
deriving DecidableEq, Repr

/-- Upsert on the `(title, href)` key (modelled by title). -/
def upsertEntry (es : List (String × String)) (t d : String) : List (String × String) :=
  if es.any (fun p => p.1 = t) then es.map (fun p => if p.1 = t then (t, d) else p)
  else es ++ [(t, d)]

/-- Embedding of `insert_model_info` (src/db/model.rs): one transaction per
entry, with the three outcome classes of `InsertFate`.  On success the
entry is upserted AND the `insert_model_info_completed` register is set to
`Completed` inside the same transaction (the source's config-update
statement before `tx.commit()`). -/
def insert_model_info (db : SyncDb) (mi : MI) (fate : InsertFate) :
    SyncDb × Except Unit Bool :=
  match fate with
  | .success =>
    ({ db with entries := upsertEntry db.entries mi.title mi.rawDigest,
               insertFlag := "Completed" }, .ok true)
  | .rollback => (db, .ok false)
  | .failure => (db, .error ())

/-- The receive loop of `receive_two` (src/service/model.rs, lines 149-168)
and `receive_job_two` (src/init/mod.rs, lines 121-136): drain the queue,
clearing `all_success` ONLY when `insert_model_info` returns `Ok(false)` —
the `if let Ok(is_success) = ... && !is_success` pattern leaves `all_success`
untouched when the insert returns `Err(_)`. -/
def receive_two_loop (db : SyncDb) (allSuccess : Bool) :
    List (MI × InsertFate) → SyncDb × Bool
  | [] => (db, allSuccess)
  | (mi, fate) :: rest =>
    match insert_model_info db mi fate with
    | (db1, res) =>
      let allSuccess1 :=
        match res with
        | .ok false => false
        | _ => allSuccess
      receive_two_loop db1 allSuccess1 rest

/-- `db::completed_init` (src/db/config.rs): sets the `init_status`
register to the given status string. -/
def completed_init (db : SyncDb) (status : String) : SyncDb :=
  { db with initStatus := status }

/-- Embedding of `receive_two`: drain the queue, then set the `init_status`
register to `Completed` if `all_success` survived, else `Failed`; the task
itself returns `Ok(())` either way. -/
def receive_two (db : SyncDb) (queue : List (MI × InsertFate)) : SyncDb :=
  match receive_two_loop db true queue with
  | (db1, allSuccess) =>
    if allSuccess then completed_init db1 "Completed" else completed_init db1 "Failed"

/-- Embedding of `receive_one`: persists the library page provenance. -/
def receive_one (db : SyncDb) (html : String) : SyncDb :=
  { db with libraryRaw := some html }

/-- Embedding of `save_model_info` (src/service/model.rs, lines 58-96): the
producer plus both consumers joined; `queue` is the sequence of assembled
entries the producer forwarded together with each entry's persistence fate,
`sendOk` abstracts whether the producer task itself returned `Ok`.  Both
receiver tasks return `Ok(())` in every modelled path, so the join succeeds
iff the producer did. -/
def save_model_info (db : SyncDb) (queue : List (MI × InsertFate)) (html : String)
    (sendOk : Bool) : SyncDb × Bool :=
  (receive_two (receive_one db html) queue, sendOk)

/-- `db::completed_insert_model_info` (src/db/config.rs): sets the
`insert_model_info_completed` register to the given status string. -/
def completed_insert_model_info (db : SyncDb) (status : String) : SyncDb :=
  { db with insertFlag := status }

/-- Embedding of `try_save_model_info` (src/service/model.rs, lines 22-41):
skip the whole sync when the `insert_model_info_completed` register reads
exactly `Completed`; otherwise run `save_model_info` and afterwards set that
register to `Completed` when the join succeeded and `Failed` otherwise.
Returns the final store, whether the sync ran at all, and whether the call
returned `Ok`. -/
def try_save_model_info (db : SyncDb) (queue : List (MI × InsertFate)) (html : String)
    (sendOk : Bool) : SyncDb × Bool × Bool :=
  if db.insertFlag == "Completed" then (db, false, true)
  else
    match save_model_info db queue html sendOk with
    | (db1, ok) =>
      if ok then (completed_insert_model_info db1 "Completed", true, true)
      else (completed_insert_model_info db1 "Failed", true, false)

/-- The initial store state of a fresh database. -/
def db0 : SyncDb := ⟨[], "Not Started", "Not Started", none⟩

theorem receive_two_loop_allSuccess (db : SyncDb) (acc : Bool) :
    ∀ queue : List (MI × InsertFate),
      (receive_two_loop db acc queue).2 =
        (acc && queue.all (fun p => !(p.2 == InsertFate.rollback))) := by
  intro queue
  induction queue generalizing db acc with
  | nil => simp [receive_two_loop]
  | cons p rest ih =>
    rcases p with ⟨mi, fate⟩
    cases fate <;>
      simp [receive_two_loop, insert_model_info, ih, Bool.and_assoc,
        show (InsertFate.success == InsertFate.rollback) = false from rfl,
        show (InsertFate.failure == InsertFate.rollback) = false from rfl,
        show (InsertFate.rollback == InsertFate.rollback) = true from rfl]

end Sync

namespace Sync

/-- A queue whose first entry persists and whose second entry fails with a
successful rollback (`insert_model_info` returns `Ok(false)`). -/
def queueOneRollback : List (MI × InsertFate) :=
  [(⟨"m1", "d1"⟩, .success), (⟨"m2", "d2"⟩, .rollback)]

/-- A queue whose only entry's persistence attempt returns `Err(_)`. -/
def queueOneError : List (MI × InsertFate) := [(⟨"m1", "d1"⟩, .failure)]

end Sync

/-- C1 is violated by the code (code bug): after a catalog sync run in which
persisting the second assembled entry failed (rollback), the pipeline's own
completion flag `insert_model_info_completed` ends as `Completed`, NOT
`Failed` — the first entry's committed transaction already wrote `Completed`
into it, the consumer records the failure only in the unrelated
`init_status` register while returning `Ok(())`, and `try_save_model_info`
then overwrites the flag with `Completed` because the join succeeded.
Consequently a subsequent sync run reads `Completed` and skips all of its
work instead of re-fetching and re-persisting: the second component below
shows the repeated call returns with the store unchanged and the ran-flag
false.  (The skip-gating part of the claim does hold: a run skips only when
the flag reads exactly `Completed`.) -/
theorem C1_failed_run_flag_eval :
    (Sync.try_save_model_info Sync.db0 Sync.queueOneRollback "lib" true).1.insertFlag
        = "Completed" ∧
    (Sync.try_save_model_info Sync.db0 Sync.queueOneRollback "lib" true).1.initStatus
        = "Failed" ∧
    Sync.try_save_model_info
        (Sync.try_save_model_info Sync.db0 Sync.queueOneRollback "lib" true).1
        Sync.queueOneRollback "lib" true
      = ((Sync.try_save_model_info Sync.db0 Sync.queueOneRollback "lib" true).1,
          false, true) := by
  decide

/-- C2 fails on the code: a queue whose only entry's persistence attempt
returns `Err(_)` (an error rather than a rollback indication) leaves
`all_success` untouched — the `if let Ok(is_success)` pattern ignores the
error — so after the queue closes the completion flag is set to `Completed`
even though the entry was never persisted (the store still has no entries). -/
theorem C2_counterexample :
    (Sync.receive_two Sync.db0 Sync.queueOneError).initStatus = "Completed" ∧
    (Sync.receive_two Sync.db0 Sync.queueOneError).entries = [] := by
  decide

/-- C2 (amended): after the queue closes, the entry-persisting consumer sets
the run's completion flag to `Completed` if and only if no received entry's
persistence attempt returned the rollback indication `Ok(false)` (and to
`Failed` otherwise); persistence attempts that return an error rather than a
rollback indication do not mark the run as failed. -/
theorem C2_completion_flag (db : Sync.SyncDb) (queue : List (Sync.MI × Sync.InsertFate)) :
    (Sync.receive_two db queue).initStatus = "Completed" ↔
      ∀ p ∈ queue, p.2 ≠ Sync.InsertFate.rollback := by
  unfold Sync.receive_two
  rcases hloop : Sync.receive_two_loop db true queue with ⟨db1, allS⟩
  have hall := Sync.receive_two_loop_allSuccess db true queue
  rw [hloop] at hall
  dsimp only at hall
  subst hall
  dsimp only
  by_cases hq : queue.all (fun p => !(p.2 == Sync.InsertFate.rollback)) = true
  · rw [if_pos (by simp [hq])]
    constructor
    · intro _ p hp
      have h2 := List.all_eq_true.mp hq p hp
      simpa using h2
    · intro _
      rfl
  · rw [if_neg (by simp [hq])]
    constructor
    · intro h
      simp [Sync.completed_init] at h
    · intro hforall
      exfalso
      apply hq
      rw [List.all_eq_true]
      intro p hp
      simpa using hforall p hp
